import Mathlib

/-!
Verification of the translation orchestration core of the thesis-translation
backend (`app/services/translation_service.py`).

The Python service is shallowly embedded below.  Pure string manipulation is
translated directly; the three external effects are modelled as explicit
parameters:

* `hash` models `hashlib.sha256(...).hexdigest()` (an arbitrary function from
  the fingerprinted string to a digest string);
* `api` models the HTTP exchange of `requests.post` plus JSON parsing: given
  the prompt it yields either the model content, a network-level failure
  (`requests.exceptions.RequestException`, which also covers non-2xx statuses
  through `raise_for_status`), or a malformed-response failure
  (`KeyError`/`IndexError`/`TypeError` while extracting
  `choices[0].message.content`);
* `sentTokenize` models `nltk.sent_tokenize`, `none` standing for the call
  raising an exception (any reason), `some` for a successful segmentation.

The in-memory cache dictionary `_TRANSLATION_CACHE` is threaded explicitly as
an association list (newest binding first, which models dictionary
overwriting for lookups), and `translate` additionally returns the ordered
trace of texts sent to the inference endpoint, so that properties about the
number of inference calls can be stated.

Python string primitives used by the service (`str.strip`, `str.replace` with
an empty replacement, `str.upper`, `str.split('\n')`, `len`, `" ".join`) are
modelled first, on the code-point level (`String.data`).
-/

namespace ThesisTranslation

/-- Characters stripped by Python `str.strip()` with no argument: exactly
the characters for which `str.isspace()` holds — the ASCII whitespace
characters, the information separators `\x1c`–`\x1f`, next-line `\x85`,
no-break space `\xa0`, and the Unicode space characters (Ogham space mark,
the range U+2000 to U+200A, line and paragraph separators, narrow no-break
space, medium mathematical space, ideographic space). -/
def isPySpace (c : Char) : Bool :=
  c == ' ' || c == '\t' || c == '\n' || c == '\r' ||
  c == Char.ofNat 11 || c == Char.ofNat 12 ||
  c == Char.ofNat 28 || c == Char.ofNat 29 || c == Char.ofNat 30 || c == Char.ofNat 31 ||
  c == Char.ofNat 133 || c == Char.ofNat 160 ||
  c == Char.ofNat 0x1680 || (0x2000 ≤ c.toNat && c.toNat ≤ 0x200a) ||
  c == Char.ofNat 0x2028 || c == Char.ofNat 0x2029 ||
  c == Char.ofNat 0x202f || c == Char.ofNat 0x205f || c == Char.ofNat 0x3000

/-- Core of Python `str.strip`: drop the characters satisfying `p` from both
ends of the list of code points. -/
def stripL (p : Char → Bool) (l : List Char) : List Char :=
  ((l.dropWhile p).reverse.dropWhile p).reverse

/-- Python `s.strip(<set>)` for an arbitrary character predicate. -/
def pyStrip (p : Char → Bool) (s : String) : String :=
  String.mk (stripL p s.data)

/-- Python `s.strip()` (whitespace on both ends). -/
def pyStripWs (s : String) : String :=
  pyStrip isPySpace s

/-- Python `s.strip(c)` for a single character `c`. -/
def pyStripChar (c : Char) (s : String) : String :=
  pyStrip (fun a => a == c) s

/-- Python `s.replace(pat, "")` on code points: remove the leftmost
occurrence of `pat`, continue after it, never rescanning removed material.
The recursion is driven by a fuel argument equal to the remaining length
(each step strictly shrinks the list, so the fuel never runs out); this
keeps the definition structurally recursive and kernel-reducible. -/
def removeAllFuel (pat : List Char) : Nat → List Char → List Char
  | 0, s => s
  | _ + 1, [] => []
  | fuel + 1, c :: cs =>
    if !pat.isEmpty && pat.isPrefixOf (c :: cs) then
      removeAllFuel pat fuel (List.drop pat.length (c :: cs))
    else
      c :: removeAllFuel pat fuel cs

/-- Python `s.replace(pat, "")` on code points. -/
def removeAll (pat : List Char) (s : List Char) : List Char :=
  removeAllFuel pat s.length s

/-- Python `s.replace(pat, "")` lifted to strings. -/
def pyReplaceEmpty (pat : String) (s : String) : String :=
  String.mk (removeAll pat.data s.data)

/-- Whether `pat` occurs as a contiguous substring of `s` (code points). -/
def containsSub (pat : List Char) : List Char → Bool
  | [] => pat.isEmpty
  | c :: cs => pat.isPrefixOf (c :: cs) || containsSub pat cs

/-- Python `str.upper` on the ASCII range (the looked-up language names are
ASCII; unknown codes pass through `Char.toUpper` unchanged outside ASCII). -/
def pyUpper (s : String) : String :=
  s.map Char.toUpper

/-- Python `" ".join(l)`. -/
def spaceJoin : List String → String
  | [] => ""
  | [s] => s
  | s :: rest => s ++ " " ++ spaceJoin rest

-- ======================================================================
-- Constants of `translation_service.py`
-- ======================================================================

/-- Constant `MAX_CHAR_COUNT = 3500`: threshold above which chunking activates. -/
def MAX_CHAR_COUNT : Nat := 3500

/-- Constant `CHUNK_TARGET_SIZE = 2000`: approximate target size of each chunk. -/
def CHUNK_TARGET_SIZE : Nat := 2000

/-- Mapping `LANGUAGE_NAMES`: ISO code to Italian language name. -/
def LANGUAGE_NAMES : List (String × String) :=
  [("en", "inglese"), ("it", "italiano"), ("fr", "francese"),
   ("de", "tedesco"), ("es", "spagnolo")]

-- ======================================================================
-- `_build_prompt`
-- ======================================================================

/-- Model of `_build_prompt(text, src, dst)`: the structured prompt sent to the model.
`LANGUAGE_NAMES.get(code, code)` is `(lookup).getD code`. -/
def buildPrompt (text src dst : String) : String :=
  let sourceLanguageName := (LANGUAGE_NAMES.lookup src).getD src
  let destinationLanguageName := (LANGUAGE_NAMES.lookup dst).getD dst
  let promptRules :=
    "Sei un sistema di traduzione letterale e ad alta fedeltà da " ++
      sourceLanguageName ++ " a " ++ destinationLanguageName ++ ".\n" ++
    "ATTENZIONE: Segui queste regole in modo tassativo:\n" ++
    "1. Il tuo unico output deve essere la traduzione in " ++
      pyUpper destinationLanguageName ++
      " del testo che si trova dopo \x27--- TESTO DA TRADURRE ---\x27.\n" ++
    "2. NON scrivere MAI frasi introduttive come \x27Certo, ecco la traduzione:\x27 o simili.\n" ++
    "3. NON aggiungere commenti, note o spiegazioni al di fuori della traduzione.\n" ++
    "4. La tua risposta deve contenere solo ed esclusivamente il testo tradotto.\n\n" ++
    "--- TESTO DA TRADURRE ---\n"
  promptRules ++ text

-- ======================================================================
-- `_clean_translation`
-- ======================================================================

/-- The literal artifact phrases removed by `_clean_translation`, in the
order the Python list enumerates them. -/
def frasiIndesiderate : List String :=
  ["Sure, il testo è stato tradotto da italiano a inglese come segue:",
   "Sure, il testo è stato tradito con alta precisione.",
   "Sure, il testo è stato tradito.",
   "Sure, il testo è già tradotto.",
   "The text is not provided in the context, so I cannot translate it.",
   "Sure, the correct management of chunks is the subject of this test.",
   "Sure, the test is designed to verify the correct management of chunks."]

/-- The double-quote character. -/
def quoteDouble : Char := Char.ofNat 34

/-- The single-quote (apostrophe) character. -/
def quoteSingle : Char := Char.ofNat 39

/-- The backtick character. -/
def quoteBacktick : Char := Char.ofNat 96

/-- Model of `_clean_translation(text)`: remove each unwanted phrase in order, then
`.strip().strip(<doublequote>).strip(<singlequote>).strip(<backtick>).strip()`. -/
def cleanTranslation (text : String) : String :=
  let cleanedText := frasiIndesiderate.foldl (fun acc frase => pyReplaceEmpty frase acc) text
  pyStripWs (pyStripChar quoteBacktick (pyStripChar quoteSingle
    (pyStripChar quoteDouble (pyStripWs cleanedText))))

-- ======================================================================
-- `_create_chunks`
-- ======================================================================

/-- The accumulation loop of `_create_chunks`: iterate the segmented units,
flushing `current_chunk.strip()` when appending the next unit would exceed
`target_size` and the buffer is non-empty; always append `unit + " "` to the
buffer afterwards; flush the final non-empty buffer. -/
def packChunksAux (targetSize : Nat) : List String → String → List String
  | [], currentChunk =>
    if currentChunk = "" then [] else [pyStripWs currentChunk]
  | sentence :: rest, currentChunk =>
    if currentChunk.length + sentence.length > targetSize ∧ currentChunk ≠ "" then
      pyStripWs currentChunk :: packChunksAux targetSize rest (sentence ++ " ")
    else
      packChunksAux targetSize rest (currentChunk ++ sentence ++ " ")

/-- The chunk-packing pass of `_create_chunks` applied to the segmented
units, starting from the empty buffer. -/
def packChunks (sentences : List String) (targetSize : Nat) : List String :=
  packChunksAux targetSize sentences ""

/-- Model of `_create_chunks(text, target_size)`.  `sentTokenize` models
`nltk.sent_tokenize`; `none` models the library raising, in which case the
fallback `text.split('\n')` is used. -/
def createChunks (sentTokenize : String → Option (List String))
    (text : String) (targetSize : Nat) : List String :=
  let sentences :=
    match sentTokenize text with
    | some s => s
    | none => text.splitOn "\n"
  packChunks sentences targetSize

-- ======================================================================
-- `_call_vllm_api`
-- ======================================================================

/-- Outcome of one HTTP round trip to the vLLM endpoint, as observed by
`_call_vllm_api`:
* `success` — 2xx response, JSON body parsed, `choices[0].message.content`
  is a string;
* `requestFailure` — a `requests.exceptions.RequestException` (connection
  failure, timeout, or non-2xx status via `raise_for_status`);
* `malformedBody` — JSON parsed but the expected fields are missing
  (`KeyError`/`IndexError`/`TypeError` during extraction);
* `unparseableBody` — 2xx response whose body `response.json()` cannot
  parse (`requests.exceptions.JSONDecodeError`, a `ValueError`, which the
  second `except (KeyError, IndexError, TypeError)` does not catch);
* `nonStringContent` — `choices[0].message.content` exists but is not a
  string (e.g. JSON `null`), so `_clean_translation` raises
  `AttributeError`, also outside the catch tuple. -/
inductive VllmResponse where
  | success (content : String)
  | requestFailure (msg : String)
  | malformedBody (msg : String)
  | unparseableBody (msg : String)
  | nonStringContent (msg : String)

/-- Exceptions escaping the service functions: a `TranslationError` raised
by the service itself (carrying its message), or an exception of any other
class that none of the `except` clauses catches and that propagates raw. -/
inductive PyError where
  | translationError (msg : String)
  | uncaught (msg : String)

/-- Discriminates whether an escaping exception is a `TranslationError`. -/
def PyError.isTranslationError : PyError → Bool
  | PyError.translationError _ => true
  | PyError.uncaught _ => false

/-- Model of `_call_vllm_api(text_to_translate, src, dst)`.  The endpoint is modelled
by `api`, a function of the prompt (the only request field that varies).
The handled failures (`requestFailure`, `malformedBody`) become
`TranslationError`s with the messages the Python code formats; the
unhandled ones (`unparseableBody`, `nonStringContent`) escape as raw
exceptions of other classes. -/
def callVllmApi (api : String → VllmResponse) (textToTranslate src dst : String) :
    Except PyError String :=
  match api (buildPrompt textToTranslate src dst) with
  | VllmResponse.success content =>
    Except.ok (cleanTranslation content)
  | VllmResponse.requestFailure e =>
    Except.error (PyError.translationError
      ("Il servizio di traduzione non è al momento disponibile: " ++ e))
  | VllmResponse.malformedBody e =>
    Except.error (PyError.translationError
      ("Risposta non valida o malformata dal servizio di traduzione: " ++ e))
  | VllmResponse.unparseableBody e =>
    Except.error (PyError.uncaught e)
  | VllmResponse.nonStringContent e =>
    Except.error (PyError.uncaught e)

-- ======================================================================
-- `translate`
-- ======================================================================

/-- The cache key of `translate`:
`hashlib.sha256(f"{src}:{dst}:{text}".encode("utf-8")).hexdigest()`, with the
digest function abstracted as `hash`. -/
def cacheKeyOf (hash : String → String) (src dst text : String) : String :=
  hash (src ++ ":" ++ dst ++ ":" ++ text)

/-- The `for i, chunk in enumerate(chunks)` loop of `translate`: translate
each chunk in order, abort on the first failure.  A `TranslationError` is
caught by `except TranslationError` and re-raised with the 1-based chunk
index and the chunk count; an exception of any other class is not caught
and propagates unchanged.  Also returns the trace of chunk texts actually
sent to the endpoint. -/
def translateChunksLoop (api : String → VllmResponse) (src dst : String)
    (total : Nat) : Nat → List String → Except PyError (List String) × List String
  | _, [] => (Except.ok [], [])
  | i, chunk :: rest =>
    match callVllmApi api chunk src dst with
    | Except.ok translatedChunk =>
      match translateChunksLoop api src dst total (i + 1) rest with
      | (Except.ok ts, trace) => (Except.ok (translatedChunk :: ts), chunk :: trace)
      | (Except.error e, trace) => (Except.error e, chunk :: trace)
    | Except.error (PyError.translationError e) =>
      (Except.error (PyError.translationError
        ("La traduzione è fallita sul chunk " ++ toString (i + 1) ++ "/" ++
          toString total ++ ". Dettagli: " ++ e)), [chunk])
    | Except.error (PyError.uncaught e) =>
      (Except.error (PyError.uncaught e), [chunk])

/-- Model of `translate(text, src, dst, **kwargs)`.  Returns the result (`Except.ok`
for the returned string, `Except.error` for an escaping exception — a
`TranslationError` or an uncaught exception of another class), the cache
after the call, and the ordered trace of texts sent to the inference
endpoint.  `kwargs` is accepted and, as in the source, never read. -/
def translate (hash : String → String) (api : String → VllmResponse)
    (sentTokenize : String → Option (List String))
    (cache : List (String × String)) (text src dst : String)
    (kwargs : List (String × String)) :
    Except PyError String × List (String × String) × List String :=
  let cacheKey := cacheKeyOf hash src dst text
  match cache.lookup cacheKey with
  | some cached => (Except.ok cached, cache, [])
  | none =>
    if text.length > MAX_CHAR_COUNT then
      let chunks := createChunks sentTokenize text CHUNK_TARGET_SIZE
      match translateChunksLoop api src dst chunks.length 0 chunks with
      | (Except.error e, trace) => (Except.error e, cache, trace)
      | (Except.ok translatedChunks, trace) =>
        let finalTranslation := spaceJoin translatedChunks
        (Except.ok finalTranslation, (cacheKey, finalTranslation) :: cache, trace)
    else
      match callVllmApi api text src dst with
      | Except.error e => (Except.error e, cache, [text])
      | Except.ok finalTranslation =>
        (Except.ok finalTranslation, (cacheKey, finalTranslation) :: cache, [text])

-- ======================================================================
-- Proof infrastructure: the chunk loop seen as grouping of units
-- ======================================================================

/-- The buffer contents built by the chunk loop for a list of buffered
units: each unit followed by one space, concatenated (`current_chunk` is
always of this shape). -/
def glue : List String → String
  | [] => ""
  | s :: rest => s ++ " " ++ glue rest

/-- The chunk a flushed buffer turns into: `current_chunk.strip()`. -/
def renderChunk (g : List String) : String :=
  pyStripWs (glue g)

/-- Abstract view of `packChunksAux`: the same loop, recording which units
end up buffered together instead of the buffer string itself. -/
def packGroupsAux (targetSize : Nat) : List String → List String → List (List String)
  | [], cur => if cur = [] then [] else [cur]
  | s :: rest, cur =>
    if (glue cur).length + s.length > targetSize ∧ cur ≠ [] then
      cur :: packGroupsAux targetSize rest [s]
    else
      packGroupsAux targetSize rest (cur ++ [s])

/-- The grouping of segmented units induced by the chunk loop. -/
def packGroups (sentences : List String) (targetSize : Nat) : List (List String) :=
  packGroupsAux targetSize sentences []

/-- Holds (as `true`) iff the string neither starts nor ends with a (Python) whitespace
character. -/
def noEdgeWs (s : String) : Bool :=
  (match s.data.head? with | some c => !isPySpace c | none => true) &&
  (match s.data.getLast? with | some c => !isPySpace c | none => true)

/-- Holds (as `true`) iff the string neither starts nor ends with one of the three
quote characters the sanitizer strips. -/
def noEdgeQuote (s : String) : Bool :=
  (match s.data.head? with
   | some c => !(c == quoteDouble || c == quoteSingle || c == quoteBacktick)
   | none => true) &&
  (match s.data.getLast? with
   | some c => !(c == quoteDouble || c == quoteSingle || c == quoteBacktick)
   | none => true)

-- ======================================================================
-- Basic string lemmas
-- ======================================================================

theorem str_eq_empty_iff (s : String) : s = "" ↔ s.data = [] := by
  constructor
  · intro h
    rw [h]
  · intro h
    exact String.ext h

theorem glue_singleton (s : String) : glue [s] = s ++ " " := by
  show s ++ " " ++ glue [] = s ++ " "
  show s ++ " " ++ "" = s ++ " "
  rw [String.append_empty]

theorem glue_append_singleton (l : List String) (s : String) :
    glue (l ++ [s]) = glue l ++ s ++ " " := by
  induction l with
  | nil =>
      apply String.ext
      simp [glue, String.data_append]
  | cons a t ih =>
      apply String.ext
      have hd := congrArg String.data ih
      simp only [List.cons_append, glue, String.data_append] at hd ⊢
      simp [hd, List.append_assoc]

theorem glue_eq_empty_iff (l : List String) : glue l = "" ↔ l = [] := by
  cases l with
  | nil => simp [glue]
  | cons s t =>
      simp only [glue, iff_false, ne_eq, reduceCtorEq]
      intro h
      have hd := congrArg String.data h
      simp [String.data_append] at hd

theorem glue_data (g : List String) (hg : g ≠ []) :
    (glue g).data = (spaceJoin g).data ++ [' '] := by
  induction g with
  | nil => exact absurd rfl hg
  | cons s t ih =>
      cases t with
      | nil =>
          show (s ++ " " ++ glue []).data = (spaceJoin [s]).data ++ [' ']
          simp [glue, spaceJoin, String.data_append]
      | cons b u =>
          show (s ++ " " ++ glue (b :: u)).data = (spaceJoin (s :: b :: u)).data ++ [' ']
          have := ih (by simp)
          simp only [String.data_append, this]
          show _ = (s ++ " " ++ spaceJoin (b :: u)).data ++ [' ']
          simp [String.data_append]

theorem spaceJoin_cons (s : String) (l : List String) (hl : l ≠ []) :
    spaceJoin (s :: l) = s ++ " " ++ spaceJoin l := by
  cases l with
  | nil => exact absurd rfl hl
  | cons b u => rfl

theorem spaceJoin_append (a b : List String) (ha : a ≠ []) (hb : b ≠ []) :
    spaceJoin (a ++ b) = spaceJoin a ++ " " ++ spaceJoin b := by
  induction a with
  | nil => exact absurd rfl ha
  | cons x a' ih =>
      cases a' with
      | nil =>
          simp only [List.cons_append, List.nil_append]
          exact spaceJoin_cons x b hb
      | cons y t =>
          have h1 : (y :: t : List String) ≠ [] := by simp
          have h2 : (y :: t : List String) ++ b ≠ [] := by simp
          rw [List.cons_append, spaceJoin_cons x _ h2, ih h1,
            spaceJoin_cons x _ h1]
          apply String.ext
          simp [String.data_append, List.append_assoc]

-- ======================================================================
-- Lemmas about `stripL`
-- ======================================================================

theorem dropWhile_head?_false (p : Char → Bool) (l : List Char) :
    ∀ c, (l.dropWhile p).head? = some c → p c = false := by
  induction l with
  | nil => intro c h; simp [List.dropWhile] at h
  | cons a t ih =>
      intro c h
      by_cases hp : p a
      · rw [List.dropWhile_cons_of_pos hp] at h
        exact ih c h
      · rw [List.dropWhile_cons_of_neg hp] at h
        simp only [List.head?_cons, Option.some.injEq] at h
        subst h
        exact Bool.not_eq_true _ |>.mp hp

theorem dropWhile_eq_self (p : Char → Bool) (l : List Char)
    (h : ∀ c, l.head? = some c → p c = false) : l.dropWhile p = l := by
  cases l with
  | nil => rfl
  | cons a t => rw [List.dropWhile_cons_of_neg (by simp [h a rfl])]

theorem stripL_eq_self (p : Char → Bool) (l : List Char)
    (h1 : ∀ c, l.head? = some c → p c = false)
    (h2 : ∀ c, l.getLast? = some c → p c = false) : stripL p l = l := by
  unfold stripL
  rw [dropWhile_eq_self p l h1]
  rw [dropWhile_eq_self p l.reverse (fun c hc => h2 c (by rwa [List.head?_reverse] at hc))]
  exact List.reverse_reverse l

theorem stripL_getLast?_false (p : Char → Bool) (l : List Char) :
    ∀ c, (stripL p l).getLast? = some c → p c = false := by
  intro c h
  unfold stripL at h
  rw [List.getLast?_reverse] at h
  exact dropWhile_head?_false p _ c h

theorem stripL_head?_false (p : Char → Bool) (l : List Char) :
    ∀ c, (stripL p l).head? = some c → p c = false := by
  intro c h
  unfold stripL at h
  rw [List.head?_reverse] at h
  have hsuff : (l.dropWhile p).reverse.dropWhile p <:+ (l.dropWhile p).reverse :=
    List.dropWhile_suffix p
  rcases hsuff with ⟨w, hw⟩
  cases hvn : (l.dropWhile p).reverse.dropWhile p with
  | nil => rw [hvn] at h; simp at h
  | cons d vt =>
      rw [hvn] at hw h
      have hlast : (l.dropWhile p).reverse.getLast? = some c := by
        rw [← hw, List.getLast?_append_of_ne_nil w (by simp)]
        exact h
      rw [List.getLast?_reverse] at hlast
      exact dropWhile_head?_false p l c hlast

theorem stripL_concat_space (w : List Char)
    (h1 : ∀ c, w.head? = some c → isPySpace c = false)
    (h2 : ∀ c, w.getLast? = some c → isPySpace c = false) :
    stripL isPySpace (w ++ [' ']) = w := by
  cases w with
  | nil => decide
  | cons a t =>
      unfold stripL
      have hd : ((a :: t) ++ [' ']).dropWhile isPySpace = (a :: t) ++ [' '] := by
        rw [List.cons_append, List.dropWhile_cons_of_neg (by simp [h1 a rfl])]
      rw [hd]
      have hrev : ((a :: t) ++ [' ']).reverse = ' ' :: (a :: t).reverse := by simp
      rw [hrev, List.dropWhile_cons_of_pos (by decide)]
      rw [dropWhile_eq_self isPySpace _ (fun c hc => h2 c (by rwa [List.head?_reverse] at hc))]
      exact List.reverse_reverse _

-- ======================================================================
-- The chunk loop as a grouping of the segmented units
-- ======================================================================

theorem packChunksAux_eq_groups (targetSize : Nat) :
    ∀ (ss : List String) (cur : List String),
      packChunksAux targetSize ss (glue cur) =
        (packGroupsAux targetSize ss cur).map renderChunk := by
  intro ss
  induction ss with
  | nil =>
      intro cur
      show (if glue cur = "" then [] else [pyStripWs (glue cur)]) = _
      by_cases hc : cur = []
      · subst hc
        simp [packGroupsAux, glue]
      · rw [if_neg (fun h => hc ((glue_eq_empty_iff cur).mp h))]
        show _ = (packGroupsAux targetSize [] cur).map renderChunk
        unfold packGroupsAux
        rw [if_neg hc]
        rfl
  | cons s rest ih =>
      intro cur
      show (if (glue cur).length + s.length > targetSize ∧ glue cur ≠ "" then
              pyStripWs (glue cur) :: packChunksAux targetSize rest (s ++ " ")
            else packChunksAux targetSize rest (glue cur ++ s ++ " ")) = _
      have hiff : (glue cur ≠ "") ↔ (cur ≠ []) := not_congr (glue_eq_empty_iff cur)
      by_cases hcond : (glue cur).length + s.length > targetSize ∧ cur ≠ []
      · rw [if_pos ⟨hcond.1, hiff.mpr hcond.2⟩]
        unfold packGroupsAux
        rw [if_pos hcond]
        rw [List.map_cons]
        have hs : (s ++ " ") = glue [s] := (glue_singleton s).symm
        rw [hs, ih [s]]
        rfl
      · have hcond2 : ¬((glue cur).length + s.length > targetSize ∧ glue cur ≠ "") := by
          intro hx
          exact hcond ⟨hx.1, hiff.mp hx.2⟩
        rw [if_neg hcond2]
        unfold packGroupsAux
        rw [if_neg hcond]
        have hg : glue cur ++ s ++ " " = glue (cur ++ [s]) := (glue_append_singleton cur s).symm
        rw [hg, ih (cur ++ [s])]

theorem packChunks_eq_groups (sentences : List String) (targetSize : Nat) :
    packChunks sentences targetSize =
      (packGroups sentences targetSize).map renderChunk := by
  have h := packChunksAux_eq_groups targetSize sentences []
  simpa [packChunks, packGroups, glue] using h

theorem packGroupsAux_flatten (targetSize : Nat) :
    ∀ (ss : List String) (cur : List String),
      (packGroupsAux targetSize ss cur).flatten = cur ++ ss := by
  intro ss
  induction ss with
  | nil =>
      intro cur
      by_cases hc : cur = []
      · subst hc; simp [packGroupsAux]
      · unfold packGroupsAux
        rw [if_neg hc]
        simp
  | cons s rest ih =>
      intro cur
      unfold packGroupsAux
      by_cases hcond : (glue cur).length + s.length > targetSize ∧ cur ≠ []
      · rw [if_pos hcond]
        rw [List.flatten_cons, ih [s]]
        rfl
      · rw [if_neg hcond]
        rw [ih (cur ++ [s])]
        simp

theorem packGroups_flatten (sentences : List String) (targetSize : Nat) :
    (packGroups sentences targetSize).flatten = sentences := by
  have h := packGroupsAux_flatten targetSize sentences []
  simpa [packGroups] using h

theorem packGroupsAux_ne_nil (targetSize : Nat) :
    ∀ (ss : List String) (cur : List String) (g : List String),
      g ∈ packGroupsAux targetSize ss cur → g ≠ [] := by
  intro ss
  induction ss with
  | nil =>
      intro cur g hg
      by_cases hc : cur = []
      · subst hc; simp [packGroupsAux] at hg
      · unfold packGroupsAux at hg
        rw [if_neg hc] at hg
        simp at hg
        subst hg
        exact hc
  | cons s rest ih =>
      intro cur g hg
      unfold packGroupsAux at hg
      by_cases hcond : (glue cur).length + s.length > targetSize ∧ cur ≠ []
      · rw [if_pos hcond] at hg
        rcases List.mem_cons.mp hg with h | h
        · subst h; exact hcond.2
        · exact ih [s] g h
      · rw [if_neg hcond] at hg
        exact ih (cur ++ [s]) g hg

-- ======================================================================
-- Edge-character facts and chunk reconstruction
-- ======================================================================

theorem noEdgeWs_head (s : String) (h : noEdgeWs s = true) :
    ∀ c, s.data.head? = some c → isPySpace c = false := by
  intro c hc
  unfold noEdgeWs at h
  rw [hc] at h
  cases hg : s.data.getLast? with
  | none => rw [hg] at h; simpa using h
  | some d => rw [hg] at h; simp at h; exact h.1

theorem noEdgeWs_getLast (s : String) (h : noEdgeWs s = true) :
    ∀ c, s.data.getLast? = some c → isPySpace c = false := by
  intro c hc
  unfold noEdgeWs at h
  rw [hc] at h
  cases hg : s.data.head? with
  | none => rw [hg] at h; simpa using h
  | some d => rw [hg] at h; simp at h; exact h.2

theorem spaceJoin_singleton (s : String) : spaceJoin [s] = s := rfl

theorem spaceJoin_data_head? (s : String) (l : List String) (hs : s.data ≠ []) :
    (spaceJoin (s :: l)).data.head? = s.data.head? := by
  cases l with
  | nil => rfl
  | cons b u =>
      rw [spaceJoin_cons s _ (by simp)]
      simp only [String.data_append]
      rw [List.head?_append_of_ne_nil _ (by simp [List.append_eq_nil, hs]),
        List.head?_append_of_ne_nil _ hs]

theorem spaceJoin_data_ne_nil (g : List String) (hg : g ≠ [])
    (hall : ∀ s ∈ g, s.data ≠ []) : (spaceJoin g).data ≠ [] := by
  cases g with
  | nil => exact absurd rfl hg
  | cons s l =>
      have h := spaceJoin_data_head? s l (hall s (by simp))
      intro hnil
      rw [hnil] at h
      cases hd : s.data with
      | nil => exact hall s (by simp) hd
      | cons c cs => rw [hd] at h; simp at h

theorem spaceJoin_data_getLast? (g : List String) (hg : g ≠ [])
    (hall : ∀ s ∈ g, s.data ≠ []) :
    ∃ t ∈ g, (spaceJoin g).data.getLast? = t.data.getLast? := by
  induction g with
  | nil => exact absurd rfl hg
  | cons s l ih =>
      cases l with
      | nil => exact ⟨s, by simp, rfl⟩
      | cons b u =>
          have hne : (b :: u : List String) ≠ [] := by simp
          have hall2 : ∀ x ∈ b :: u, x.data ≠ [] := fun x hx => hall x (by simp [hx])
          rcases ih hne hall2 with ⟨t, ht, hEq⟩
          refine ⟨t, by simp [ht], ?_⟩
          rw [spaceJoin_cons s _ hne]
          simp only [String.data_append]
          rw [List.append_assoc,
            List.getLast?_append_of_ne_nil _
              (by simp [List.append_eq_nil, spaceJoin_data_ne_nil _ hne hall2]),
            List.getLast?_append_of_ne_nil _ (spaceJoin_data_ne_nil _ hne hall2)]
          exact hEq

theorem renderChunk_eq_spaceJoin (g : List String) (hg : g ≠ [])
    (hall : ∀ s ∈ g, s ≠ "" ∧ noEdgeWs s = true) :
    renderChunk g = spaceJoin g := by
  have hall2 : ∀ s ∈ g, s.data ≠ [] :=
    fun s hs h => (hall s hs).1 ((str_eq_empty_iff s).mpr h)
  unfold renderChunk pyStripWs pyStrip
  apply String.ext
  show stripL isPySpace (glue g).data = (spaceJoin g).data
  rw [glue_data g hg]
  apply stripL_concat_space
  · intro c hc
    cases g with
    | nil => exact absurd rfl hg
    | cons s l =>
        rw [spaceJoin_data_head? s l (hall2 s (by simp))] at hc
        exact noEdgeWs_head s (hall s (by simp)).2 c hc
  · intro c hc
    rcases spaceJoin_data_getLast? g hg hall2 with ⟨t, ht, hEq⟩
    rw [hEq] at hc
    exact noEdgeWs_getLast t (hall t ht).2 c hc

theorem spaceJoin_map_spaceJoin (groups : List (List String))
    (hne : ∀ g ∈ groups, g ≠ []) :
    spaceJoin (groups.map spaceJoin) = spaceJoin groups.flatten := by
  induction groups with
  | nil => rfl
  | cons g gs ih =>
      cases gs with
      | nil => simp [spaceJoin_singleton]
      | cons g2 gs2 =>
          have hg : g ≠ [] := hne g (by simp)
          have hne2 : ∀ x ∈ g2 :: gs2, x ≠ [] := fun x hx => hne x (by simp [hx])
          have hflat : (g2 :: gs2 : List (List String)).flatten ≠ [] := by
            intro hnil
            rw [List.flatten_cons] at hnil
            exact hne2 g2 (by simp) (List.append_eq_nil.mp hnil).1
          rw [List.map_cons, spaceJoin_cons _ _ (by simp), ih hne2,
            ← spaceJoin_append g _ hg hflat, ← List.flatten_cons]

theorem packGroupsAux_oversized (targetSize : Nat) (s : String)
    (hs : targetSize < s.length) :
    ∀ (ss : List String) (cur : List String), (s ∈ cur → cur = [s]) →
      ∀ g ∈ packGroupsAux targetSize ss cur, s ∈ g → g = [s] := by
  intro ss
  induction ss with
  | nil =>
      intro cur hinv g hg hsg
      by_cases hc : cur = []
      · subst hc; simp [packGroupsAux] at hg
      · unfold packGroupsAux at hg
        rw [if_neg hc] at hg
        simp at hg; subst hg; exact hinv hsg
  | cons a rest ih =>
      intro cur hinv g hg hsg
      unfold packGroupsAux at hg
      by_cases hcond : (glue cur).length + a.length > targetSize ∧ cur ≠ []
      · rw [if_pos hcond] at hg
        rcases List.mem_cons.mp hg with h | h
        · subst h; exact hinv hsg
        · refine ih [a] ?_ g h hsg
          intro hsa
          have hEq : s = a := List.mem_singleton.mp hsa
          rw [hEq]
      · rw [if_neg hcond] at hg
        refine ih (cur ++ [a]) ?_ g hg hsg
        intro hmem
        rcases List.mem_append.mp hmem with hc | hc
        · have hcur : cur = [s] := hinv hc
          exfalso
          apply hcond
          refine ⟨?_, by rw [hcur]; simp⟩
          rw [hcur, glue_singleton, String.length_append]
          have hone : (" " : String).length = 1 := rfl
          omega
        · have hsa : s = a := List.mem_singleton.mp hc
          by_cases hcnil : cur = []
          · rw [hcnil, hsa]; rfl
          · exfalso
            apply hcond
            refine ⟨?_, hcnil⟩
            subst hsa
            omega

-- ======================================================================
-- Claims C3 and C8: chunk reconstruction and the oversized-unit policy
-- ======================================================================

/-- C3: For every list of segmented units and every target size, the
packing loop of `_create_chunks` partitions the unit list into consecutive
non-empty groups — every unit lands in exactly one chunk, in the original
order, none dropped or duplicated — and, whenever every unit is non-empty
with no leading or trailing whitespace (as `nltk.sent_tokenize` produces),
the space-join of the resulting chunks equals the space-join of the units:
the sentence content is reconstructed losslessly. -/
theorem claim_C3_chunk_reconstruction (sentences : List String) (targetSize : Nat) :
    (packGroups sentences targetSize).flatten = sentences ∧
    (∀ g ∈ packGroups sentences targetSize, g ≠ []) ∧
    packChunks sentences targetSize = (packGroups sentences targetSize).map renderChunk ∧
    ((∀ s ∈ sentences, s ≠ "" ∧ noEdgeWs s = true) →
      spaceJoin (packChunks sentences targetSize) = spaceJoin sentences) := by
  have hflat := packGroups_flatten sentences targetSize
  have hne : ∀ g ∈ packGroups sentences targetSize, g ≠ [] :=
    fun g hg => packGroupsAux_ne_nil targetSize sentences [] g hg
  have heq := packChunks_eq_groups sentences targetSize
  refine ⟨hflat, hne, heq, ?_⟩
  intro hs
  rw [heq]
  have hmap : (packGroups sentences targetSize).map renderChunk =
      (packGroups sentences targetSize).map spaceJoin := by
    apply List.map_congr_left
    intro g hg
    apply renderChunk_eq_spaceJoin g (hne g hg)
    intro s hsg
    apply hs
    rw [← hflat]
    exact List.mem_flatten.mpr ⟨g, hg, hsg⟩
  rw [hmap, spaceJoin_map_spaceJoin _ hne, hflat]

/-- Witness for C3 at a concrete segmentation: two trimmed sentences packed
with target size 15, where the trimmedness hypothesis of the reconstruction
equality holds and is discharged. -/
theorem claim_C3_witness :
    (∀ s ∈ (["Prima frase.", "Seconda frase."] : List String), s ≠ "" ∧ noEdgeWs s = true) ∧
    (packGroups ["Prima frase.", "Seconda frase."] 15).flatten =
      ["Prima frase.", "Seconda frase."] ∧
    (∀ g ∈ packGroups ["Prima frase.", "Seconda frase."] 15, g ≠ []) ∧
    packChunks ["Prima frase.", "Seconda frase."] 15 =
      (packGroups ["Prima frase.", "Seconda frase."] 15).map renderChunk ∧
    spaceJoin (packChunks ["Prima frase.", "Seconda frase."] 15) =
      spaceJoin ["Prima frase.", "Seconda frase."] := by
  have h := claim_C3_chunk_reconstruction ["Prima frase.", "Seconda frase."] 15
  exact ⟨by decide, h.1, h.2.1, h.2.2.1, h.2.2.2 (by decide)⟩

/-- C8: A segmented unit longer than `target_size` is never split further by
the chunk loop: every chunk group containing it is exactly the singleton of
that unit — it becomes one chunk on its own, not several, and (by the
partition property) it is not dropped. -/
theorem claim_C8_oversized_unit (sentences : List String) (targetSize : Nat)
    (s : String) (hmem : s ∈ sentences) (hlen : targetSize < s.length) :
    packChunks sentences targetSize = (packGroups sentences targetSize).map renderChunk ∧
    (packGroups sentences targetSize).flatten = sentences ∧
    (∀ g ∈ packGroups sentences targetSize, s ∈ g → g = [s]) ∧
    ∃ g ∈ packGroups sentences targetSize, g = [s] := by
  have hflat := packGroups_flatten sentences targetSize
  have hover : ∀ g ∈ packGroups sentences targetSize, s ∈ g → g = [s] :=
    fun g hg => packGroupsAux_oversized targetSize s hlen sentences []
      (fun h => absurd h (List.not_mem_nil s)) g hg
  refine ⟨packChunks_eq_groups sentences targetSize, hflat, hover, ?_⟩
  have hsmem : s ∈ (packGroups sentences targetSize).flatten := by
    rw [hflat]; exact hmem
  rcases List.mem_flatten.mp hsmem with ⟨g, hg, hsg⟩
  exact ⟨g, hg, hover g hg hsg⟩

/-- Witness for C8: a 6-character unit with target size 3 becomes exactly
one chunk. -/
theorem claim_C8_witness :
    ("abcdef" ∈ (["abcdef"] : List String)) ∧ 3 < ("abcdef" : String).length ∧
    (packChunks ["abcdef"] 3 = (packGroups ["abcdef"] 3).map renderChunk ∧
      (packGroups ["abcdef"] 3).flatten = ["abcdef"] ∧
      (∀ g ∈ packGroups ["abcdef"] 3, "abcdef" ∈ g → g = ["abcdef"]) ∧
      ∃ g ∈ packGroups ["abcdef"] 3, g = ["abcdef"]) :=
  ⟨by decide, by decide, claim_C8_oversized_unit ["abcdef"] 3 "abcdef" (by decide) (by decide)⟩

-- ======================================================================
-- Claim C9: segmentation fallback
-- ======================================================================

/-- C9: `_create_chunks` is total in the segmentation: when the primary
`nltk.sent_tokenize` raises (modelled as the oracle returning `none`), the
newline-split fallback is used, and the function still returns a value (the
fallback path is a total function, so segmentation failure is never
surfaced to the caller). -/
theorem claim_C9_segmentation_fallback
    (sentTokenize : String → Option (List String)) (text : String) (targetSize : Nat)
    (hfail : sentTokenize text = none) :
    createChunks sentTokenize text targetSize =
      packChunks (text.splitOn "\n") targetSize := by
  unfold createChunks
  rw [hfail]

/-- Witness for C9: a segmenter that always raises falls back to newline
splitting. -/
theorem claim_C9_witness :
    ((fun _ : String => (none : Option (List String))) "a\nb" = none) ∧
    createChunks (fun _ => none) "a\nb" 5 = packChunks ("a\nb".splitOn "\n") 5 :=
  ⟨rfl, claim_C9_segmentation_fallback (fun _ => none) "a\nb" 5 rfl⟩

-- ======================================================================
-- Claim C10: extra keyword arguments are inert
-- ======================================================================

/-- C10: `translate` ignores its `**kwargs`: for any two keyword-argument
maps the result, the resulting cache, and the trace of inference calls are
identical. -/
theorem claim_C10_kwargs_ignored (hash : String → String)
    (api : String → VllmResponse) (sentTokenize : String → Option (List String))
    (cache : List (String × String)) (text src dst : String)
    (kwargs1 kwargs2 : List (String × String)) :
    translate hash api sentTokenize cache text src dst kwargs1 =
      translate hash api sentTokenize cache text src dst kwargs2 := rfl

-- ======================================================================
-- Claim C7: fingerprint construction
-- ======================================================================

theorem append_sep_inj (c : Char) :
    ∀ (a1 a2 b1 b2 : List Char), c ∉ a1 → c ∉ a2 →
      a1 ++ c :: b1 = a2 ++ c :: b2 → a1 = a2 ∧ b1 = b2 := by
  intro a1
  induction a1 with
  | nil =>
      intro a2 b1 b2 h1 h2 h
      cases a2 with
      | nil => simpa using h
      | cons x xs =>
          simp only [List.nil_append, List.cons_append, List.cons.injEq] at h
          exact absurd (h.1 ▸ List.mem_cons_self x xs) h2
  | cons y ys ih =>
      intro a2 b1 b2 h1 h2 h
      cases a2 with
      | nil =>
          simp only [List.nil_append, List.cons_append, List.cons.injEq] at h
          exact absurd (h.1 ▸ List.mem_cons_self y ys) h1
      | cons x xs =>
          simp only [List.cons_append, List.cons.injEq] at h
          obtain ⟨hyx, hrest⟩ := h
          have h1b : c ∉ ys := fun hc => h1 (List.mem_cons_of_mem y hc)
          have h2b : c ∉ xs := fun hc => h2 (List.mem_cons_of_mem x hc)
          obtain ⟨ha, hb⟩ := ih xs b1 b2 h1b h2b hrest
          exact ⟨by rw [hyx, ha], hb⟩

/-- C7: The cache fingerprint hashes `src + ":" + dst + ":" + text` in that
fixed order.  For any injective digest function (the idealisation of a
collision-resistant hash) and language codes not containing the `:`
separator, distinct `(src, dst, text)` triples yield distinct fingerprints;
in particular swapping the two codes, or any change to `text`, changes the
fingerprint. -/
theorem claim_C7_fingerprint_injective (hash : String → String)
    (hinj : Function.Injective hash) (s1 d1 t1 s2 d2 t2 : String)
    (hs1 : ':' ∉ s1.data) (hd1 : ':' ∉ d1.data)
    (hs2 : ':' ∉ s2.data) (hd2 : ':' ∉ d2.data)
    (hne : ¬(s1 = s2 ∧ d1 = d2 ∧ t1 = t2)) :
    cacheKeyOf hash s1 d1 t1 ≠ cacheKeyOf hash s2 d2 t2 := by
  intro h
  apply hne
  have hstr : s1 ++ ":" ++ d1 ++ ":" ++ t1 = s2 ++ ":" ++ d2 ++ ":" ++ t2 := hinj h
  have hdata := congrArg String.data hstr
  have hcolon : (":" : String).data = [':'] := rfl
  simp only [String.data_append, hcolon, List.append_assoc, List.singleton_append] at hdata
  obtain ⟨hsrc, hrest⟩ := append_sep_inj ':' s1.data s2.data _ _ hs1 hs2 hdata
  obtain ⟨hdst, htext⟩ := append_sep_inj ':' d1.data d2.data _ _ hd1 hd2 hrest
  exact ⟨String.ext hsrc, String.ext hdst, String.ext htext⟩

/-- Witness for C7: with the identity digest, swapping `"it"` and `"en"`
changes the fingerprint of the same text. -/
theorem claim_C7_witness :
    Function.Injective (id : String → String) ∧
    cacheKeyOf id "it" "en" "testo" ≠ cacheKeyOf id "en" "it" "testo" :=
  ⟨fun _ _ h => h,
   claim_C7_fingerprint_injective id (fun _ _ h => h) "it" "en" "testo" "en" "it" "testo"
     (by decide) (by decide) (by decide) (by decide) (by decide)⟩

-- ======================================================================
-- Claim C5: sanitizer idempotence
-- ======================================================================

theorem removeAll_of_not_contains (pat : List Char) (s : List Char)
    (h : containsSub pat s = false) : removeAll pat s = s := by
  induction s with
  | nil => rfl
  | cons c cs ih =>
      unfold containsSub at h
      rw [Bool.or_eq_false_iff] at h
      show removeAllFuel pat (cs.length + 1) (c :: cs) = c :: cs
      unfold removeAllFuel
      rw [h.1, Bool.and_false, if_neg (by simp)]
      exact congrArg (c :: ·) (ih h.2)

theorem foldl_removeAll_of_not_contains (ps : List String) (s : String)
    (h : ∀ p ∈ ps, containsSub p.data s.data = false) :
    ps.foldl (fun acc frase => pyReplaceEmpty frase acc) s = s := by
  induction ps with
  | nil => rfl
  | cons p rest ih =>
      have h1 : pyReplaceEmpty p s = s := by
        unfold pyReplaceEmpty
        rw [removeAll_of_not_contains _ _ (h p (by simp))]
      rw [List.foldl_cons]
      show List.foldl _ (pyReplaceEmpty p s) rest = s
      rw [h1]
      exact ih (fun q hq => h q (by simp [hq]))

theorem noEdgeQuote_head (s : String) (h : noEdgeQuote s = true) :
    ∀ c, s.data.head? = some c →
      (c == quoteDouble || c == quoteSingle || c == quoteBacktick) = false := by
  intro c hc
  unfold noEdgeQuote at h
  rw [hc] at h
  cases hg : s.data.getLast? with
  | none => rw [hg] at h; simpa using h
  | some d => rw [hg] at h; simp at h; simp [h.1]

theorem noEdgeQuote_getLast (s : String) (h : noEdgeQuote s = true) :
    ∀ c, s.data.getLast? = some c →
      (c == quoteDouble || c == quoteSingle || c == quoteBacktick) = false := by
  intro c hc
  unfold noEdgeQuote at h
  rw [hc] at h
  cases hg : s.data.head? with
  | none => rw [hg] at h; simpa using h
  | some d => rw [hg] at h; simp at h; simp [h.2]

/-- C5 counterexample: the claim `sanitize (sanitize x) = sanitize x` for
every string fails on the source: on the 7-character input
`<singlequote> <doublequote>a<doublequote> <singlequote>` one application
yields `<doublequote>a<doublequote>` and a second application strips the
newly exposed quote layer, yielding `a`. -/
theorem claim_C5_counterexample :
    cleanTranslation (cleanTranslation
        (String.mk [quoteSingle, ' ', quoteDouble, 'a', quoteDouble, ' ', quoteSingle])) ≠
      cleanTranslation
        (String.mk [quoteSingle, ' ', quoteDouble, 'a', quoteDouble, ' ', quoteSingle]) := by
  decide

/-- C5 (amended): `_clean_translation` is idempotent on every string `x`
whose sanitized form contains none of the artifact phrases and neither
begins nor ends with a quote character (double quote, single quote,
backtick); in general a second application can strip further quote layers
exposed by the first, or newly formed artifact phrases. -/
theorem pyStripWs_head?_false (s : String) :
    ∀ c, (pyStripWs s).data.head? = some c → isPySpace c = false :=
  fun c hc => stripL_head?_false _ _ c hc

theorem pyStripWs_getLast?_false (s : String) :
    ∀ c, (pyStripWs s).data.getLast? = some c → isPySpace c = false :=
  fun c hc => stripL_getLast?_false _ _ c hc

theorem cleanTranslation_head?_false (x : String) :
    ∀ c, (cleanTranslation x).data.head? = some c → isPySpace c = false := by
  intro c hc
  simp only [cleanTranslation] at hc
  exact pyStripWs_head?_false _ c hc

theorem cleanTranslation_getLast?_false (x : String) :
    ∀ c, (cleanTranslation x).data.getLast? = some c → isPySpace c = false := by
  intro c hc
  simp only [cleanTranslation] at hc
  exact pyStripWs_getLast?_false _ c hc

theorem cleanTranslation_of_clean (z : String)
    (hp : ∀ p ∈ frasiIndesiderate, containsSub p.data z.data = false)
    (hwsh : ∀ c, z.data.head? = some c → isPySpace c = false)
    (hwsl : ∀ c, z.data.getLast? = some c → isPySpace c = false)
    (hq : noEdgeQuote z = true) : cleanTranslation z = z := by
  have hws : pyStripWs z = z := by
    unfold pyStripWs pyStrip
    apply String.ext
    show stripL isPySpace z.data = z.data
    exact stripL_eq_self _ _ hwsh hwsl
  have hqs : ∀ q : Char, (q = quoteDouble ∨ q = quoteSingle ∨ q = quoteBacktick) →
      pyStripChar q z = z := by
    intro q hqmem
    unfold pyStripChar pyStrip
    apply String.ext
    show stripL (fun a => a == q) z.data = z.data
    apply stripL_eq_self
    · intro c hc
      have h3 := noEdgeQuote_head _ hq c hc
      rw [Bool.or_eq_false_iff, Bool.or_eq_false_iff] at h3
      rcases hqmem with rfl | rfl | rfl
      · exact h3.1.1
      · exact h3.1.2
      · exact h3.2
    · intro c hc
      have h3 := noEdgeQuote_getLast _ hq c hc
      rw [Bool.or_eq_false_iff, Bool.or_eq_false_iff] at h3
      rcases hqmem with rfl | rfl | rfl
      · exact h3.1.1
      · exact h3.1.2
      · exact h3.2
  simp only [cleanTranslation]
  rw [foldl_removeAll_of_not_contains _ _ hp, hws,
    hqs quoteDouble (Or.inl rfl), hqs quoteSingle (Or.inr (Or.inl rfl)),
    hqs quoteBacktick (Or.inr (Or.inr rfl)), hws]

/-- C5 (amended): `_clean_translation` is idempotent on every string `x`
whose sanitized form contains none of the artifact phrases and neither
begins nor ends with a quote character (double quote, single quote,
backtick); in general a second application can strip further quote layers
exposed by the first, or newly formed artifact phrases. -/
theorem claim_C5_sanitizer_idempotent (x : String)
    (hp : ∀ p ∈ frasiIndesiderate, containsSub p.data (cleanTranslation x).data = false)
    (hq : noEdgeQuote (cleanTranslation x) = true) :
    cleanTranslation (cleanTranslation x) = cleanTranslation x :=
  cleanTranslation_of_clean (cleanTranslation x) hp
    (cleanTranslation_head?_false x) (cleanTranslation_getLast?_false x) hq

/-- Witness for the amended C5: on `"ciao"` the hypotheses hold and the
sanitizer is a no-op the second time. -/
theorem claim_C5_witness :
    (∀ p ∈ frasiIndesiderate, containsSub p.data (cleanTranslation "ciao").data = false) ∧
    noEdgeQuote (cleanTranslation "ciao") = true ∧
    cleanTranslation (cleanTranslation "ciao") = cleanTranslation "ciao" :=
  ⟨by decide, by decide, claim_C5_sanitizer_idempotent "ciao" (by decide) (by decide)⟩

-- ======================================================================
-- Lemmas about the chunk-translation loop
-- ======================================================================

theorem translateChunksLoop_all_ok (api : String → VllmResponse) (src dst : String)
    (total : Nat) (g : String → String) :
    ∀ (chunks : List String) (i : Nat),
      (∀ c ∈ chunks, callVllmApi api c src dst = Except.ok (g c)) →
      translateChunksLoop api src dst total i chunks =
        (Except.ok (chunks.map g), chunks) := by
  intro chunks
  induction chunks with
  | nil => intro i _; rfl
  | cons c cs ih =>
      intro i hall
      unfold translateChunksLoop
      rw [hall c (by simp), ih (i + 1) (fun x hx => hall x (by simp [hx]))]
      rfl

theorem translateChunksLoop_first_wrapped (api : String → VllmResponse)
    (src dst : String) (total : Nat) (e : String) :
    ∀ (pre : List String) (c : String) (post : List String) (i : Nat),
      (∀ p ∈ pre, ∃ t, callVllmApi api p src dst = Except.ok t) →
      callVllmApi api c src dst = Except.error (PyError.translationError e) →
      translateChunksLoop api src dst total i (pre ++ c :: post) =
        (Except.error (PyError.translationError
           ("La traduzione è fallita sul chunk " ++ toString (i + pre.length + 1) ++
             "/" ++ toString total ++ ". Dettagli: " ++ e)), pre ++ [c]) := by
  intro pre
  induction pre with
  | nil =>
      intro c post i _ hfail
      rw [List.nil_append]
      unfold translateChunksLoop
      rw [hfail]
      simp
  | cons p pre2 ih =>
      intro c post i hok hfail
      obtain ⟨t, ht⟩ := hok p (by simp)
      rw [List.cons_append]
      unfold translateChunksLoop
      rw [ht, ih c post (i + 1) (fun x hx => hok x (by simp [hx])) hfail]
      have harith : i + 1 + pre2.length + 1 = i + (pre2.length + 1) + 1 := by omega
      rw [harith]
      rfl

theorem translateChunksLoop_first_uncaught (api : String → VllmResponse)
    (src dst : String) (total : Nat) (e : String) :
    ∀ (pre : List String) (c : String) (post : List String) (i : Nat),
      (∀ p ∈ pre, ∃ t, callVllmApi api p src dst = Except.ok t) →
      callVllmApi api c src dst = Except.error (PyError.uncaught e) →
      translateChunksLoop api src dst total i (pre ++ c :: post) =
        (Except.error (PyError.uncaught e), pre ++ [c]) := by
  intro pre
  induction pre with
  | nil =>
      intro c post i _ hfail
      rw [List.nil_append]
      unfold translateChunksLoop
      rw [hfail]
      simp
  | cons p pre2 ih =>
      intro c post i hok hfail
      obtain ⟨t, ht⟩ := hok p (by simp)
      rw [List.cons_append]
      unfold translateChunksLoop
      rw [ht, ih c post (i + 1) (fun x hx => hok x (by simp [hx])) hfail]
      rfl

theorem translate_chunked_uncaught (hash : String → String)
    (api : String → VllmResponse) (sentTokenize : String → Option (List String))
    (cache : List (String × String)) (text src dst : String)
    (kwargs : List (String × String)) (pre : List String) (failingChunk : String)
    (post : List String) (e : String)
    (hmiss : List.lookup (cacheKeyOf hash src dst text) cache = none)
    (hlong : MAX_CHAR_COUNT < text.length)
    (hchunks : createChunks sentTokenize text CHUNK_TARGET_SIZE = pre ++ failingChunk :: post)
    (hok : ∀ p ∈ pre, ∃ t, callVllmApi api p src dst = Except.ok t)
    (hfail : callVllmApi api failingChunk src dst = Except.error (PyError.uncaught e)) :
    translate hash api sentTokenize cache text src dst kwargs =
      (Except.error (PyError.uncaught e), cache, pre ++ [failingChunk]) := by
  simp only [translate, hmiss]
  rw [if_pos (show text.length > MAX_CHAR_COUNT from hlong)]
  rw [hchunks,
    translateChunksLoop_first_uncaught api src dst _ e pre failingChunk post 0 hok hfail]

-- ======================================================================
-- Claim C1: what a chunk failure does to the whole request
-- ======================================================================

/-- C1 (amended): In the chunked path (cache miss, text longer than
`MAX_CHAR_COUNT`), the first failing chunk always aborts the whole request
with no partial result and the cache exactly as it was; the error class
depends on the failure: a failure handled by `_call_vllm_api`'s `except`
clauses (network failure, non-2xx status, missing response fields) is
re-raised as a `TranslationError` naming the failing 1-based chunk index
and the underlying cause, while an exception outside the handled classes
(unparseable 2xx JSON body, non-string content) propagates raw, without
`TranslationError` wrapping and without a chunk index. -/
theorem claim_C1_chunk_failure_aborts (hash : String → String)
    (api : String → VllmResponse) (sentTokenize : String → Option (List String))
    (cache : List (String × String)) (text src dst : String)
    (kwargs : List (String × String)) (pre : List String) (failingChunk : String)
    (post : List String)
    (hmiss : List.lookup (cacheKeyOf hash src dst text) cache = none)
    (hlong : MAX_CHAR_COUNT < text.length)
    (hchunks : createChunks sentTokenize text CHUNK_TARGET_SIZE = pre ++ failingChunk :: post)
    (hok : ∀ p ∈ pre, ∃ t, callVllmApi api p src dst = Except.ok t) :
    (∀ e, callVllmApi api failingChunk src dst =
        Except.error (PyError.translationError e) →
      translate hash api sentTokenize cache text src dst kwargs =
        (Except.error (PyError.translationError
           ("La traduzione è fallita sul chunk " ++ toString (pre.length + 1) ++
             "/" ++ toString (pre ++ failingChunk :: post).length ++ ". Dettagli: " ++ e)),
         cache, pre ++ [failingChunk])) ∧
    (∀ e, callVllmApi api failingChunk src dst = Except.error (PyError.uncaught e) →
      translate hash api sentTokenize cache text src dst kwargs =
        (Except.error (PyError.uncaught e), cache, pre ++ [failingChunk])) := by
  constructor
  · intro e hfail
    simp only [translate, hmiss]
    rw [if_pos (show text.length > MAX_CHAR_COUNT from hlong)]
    rw [hchunks,
      translateChunksLoop_first_wrapped api src dst _ e pre failingChunk post 0 hok hfail]
    simp
  · intro e hfail
    exact translate_chunked_uncaught hash api sentTokenize cache text src dst kwargs
      pre failingChunk post e hmiss hlong hchunks hok hfail

-- ======================================================================
-- Claim C2: cache idempotence
-- ======================================================================

/-- C2: If a call to `translate` returns a result successfully, an
identical call against the resulting cache returns the identical string,
performs zero inference-endpoint calls (empty trace), and leaves the cache
unchanged: the second call is served from the cache entry the first call
wrote. -/
theorem claim_C2_cache_idempotence (hash : String → String)
    (api : String → VllmResponse) (sentTokenize : String → Option (List String))
    (cache : List (String × String)) (text src dst : String)
    (kwargs1 kwargs2 : List (String × String)) (v : String)
    (cache2 : List (String × String)) (trace : List String)
    (h : translate hash api sentTokenize cache text src dst kwargs1 =
      (Except.ok v, cache2, trace)) :
    translate hash api sentTokenize cache2 text src dst kwargs2 =
      (Except.ok v, cache2, []) := by
  simp only [translate] at h ⊢
  cases hlook : List.lookup (cacheKeyOf hash src dst text) cache with
  | some cached =>
      simp only [hlook, Prod.mk.injEq, Except.ok.injEq] at h
      obtain ⟨hv, hc, _⟩ := h
      rw [← hc, hlook]
      simp [hv]
  | none =>
      simp only [hlook] at h
      by_cases hlen : text.length > MAX_CHAR_COUNT
      · rw [if_pos hlen] at h
        rcases hres : translateChunksLoop api src dst
            (createChunks sentTokenize text CHUNK_TARGET_SIZE).length 0
            (createChunks sentTokenize text CHUNK_TARGET_SIZE) with ⟨r, tr⟩
        rw [hres] at h
        cases r with
        | error e => simp at h
        | ok ts =>
            simp only [Prod.mk.injEq, Except.ok.injEq] at h
            obtain ⟨hv, hc, _⟩ := h
            rw [← hc]
            have hhit : List.lookup (cacheKeyOf hash src dst text)
                ((cacheKeyOf hash src dst text, spaceJoin ts) :: cache) =
                some (spaceJoin ts) := by simp [List.lookup]
            rw [hhit]
            simp [hv]
      · rw [if_neg hlen] at h
        cases hcall : callVllmApi api text src dst with
        | error e => rw [hcall] at h; simp at h
        | ok t =>
            rw [hcall] at h
            simp only [Prod.mk.injEq, Except.ok.injEq] at h
            obtain ⟨hv, hc, _⟩ := h
            rw [← hc]
            have hhit : List.lookup (cacheKeyOf hash src dst text)
                ((cacheKeyOf hash src dst text, t) :: cache) = some t := by
              simp [List.lookup]
            rw [hhit]
            simp [hv]

-- ======================================================================
-- Claim C4: the chunked result is the ordered single-space join
-- ======================================================================

/-- C4: In the chunked path (cache miss, text longer than
`MAX_CHAR_COUNT`), when every chunk translates successfully the value
`translate` returns — and writes to the cache — is exactly the single-space
join of the per-chunk sanitized translations in the chunks' original order,
and the chunks are sent to the endpoint exactly in that order (the trace is
the chunk list itself: no reordering). -/
theorem claim_C4_ordered_join (hash : String → String)
    (api : String → VllmResponse) (sentTokenize : String → Option (List String))
    (cache : List (String × String)) (text src dst : String)
    (kwargs : List (String × String)) (g : String → String)
    (hmiss : List.lookup (cacheKeyOf hash src dst text) cache = none)
    (hlong : MAX_CHAR_COUNT < text.length)
    (hall : ∀ c ∈ createChunks sentTokenize text CHUNK_TARGET_SIZE,
      callVllmApi api c src dst = Except.ok (g c)) :
    translate hash api sentTokenize cache text src dst kwargs =
      (Except.ok (spaceJoin ((createChunks sentTokenize text CHUNK_TARGET_SIZE).map g)),
       (cacheKeyOf hash src dst text,
         spaceJoin ((createChunks sentTokenize text CHUNK_TARGET_SIZE).map g)) :: cache,
       createChunks sentTokenize text CHUNK_TARGET_SIZE) := by
  simp only [translate, hmiss]
  rw [if_pos (show text.length > MAX_CHAR_COUNT from hlong)]
  rw [translateChunksLoop_all_ok api src dst _ g _ 0 hall]

-- ======================================================================
-- Claim C6: retry behaviour on a persistently failing endpoint
-- ======================================================================

/-- C6 (amended): `_call_vllm_api` performs exactly one HTTP attempt — there
is no retry loop.  When the endpoint fails (e.g. HTTP 503, surfaced as a
`RequestException` by `raise_for_status`) on a short-text request,
`translate` raises `TranslationError` immediately after that single attempt:
the inference trace contains exactly one entry. -/
theorem claim_C6_single_attempt (hash : String → String)
    (api : String → VllmResponse) (sentTokenize : String → Option (List String))
    (cache : List (String × String)) (text src dst : String)
    (kwargs : List (String × String)) (e : String)
    (hmiss : List.lookup (cacheKeyOf hash src dst text) cache = none)
    (hshort : ¬ text.length > MAX_CHAR_COUNT)
    (hfail : api (buildPrompt text src dst) = VllmResponse.requestFailure e) :
    translate hash api sentTokenize cache text src dst kwargs =
      (Except.error (PyError.translationError
         ("Il servizio di traduzione non è al momento disponibile: " ++ e)),
       cache, [text]) := by
  simp only [translate, hmiss]
  rw [if_neg hshort]
  unfold callVllmApi
  rw [hfail]

/-- C6 counterexample: with an endpoint that fails every attempt (an HTTP
503 on every request), `translate` raises after exactly one inference
attempt, not three — the claimed 3-attempt retry policy does not exist in
the code. -/
theorem claim_C6_counterexample :
    translate id (fun _ => VllmResponse.requestFailure "503 Service Unavailable")
        (fun _ => none) [] "ciao" "it" "en" [] =
      (Except.error (PyError.translationError
        "Il servizio di traduzione non è al momento disponibile: 503 Service Unavailable"),
       [], ["ciao"]) ∧
    (translate id (fun _ => VllmResponse.requestFailure "503 Service Unavailable")
        (fun _ => none) [] "ciao" "it" "en" []).2.2.length = 1 :=
  ⟨rfl, rfl⟩

/-- Witness for the amended C6 at a concrete failing endpoint. -/
theorem claim_C6_witness :
    (List.lookup (cacheKeyOf id "it" "en" "ciao") ([] : List (String × String)) = none) ∧
    (¬ ("ciao" : String).length > MAX_CHAR_COUNT) ∧
    ((fun _ : String => VllmResponse.requestFailure "503") (buildPrompt "ciao" "it" "en") =
      VllmResponse.requestFailure "503") ∧
    translate id (fun _ => VllmResponse.requestFailure "503") (fun _ => none)
        [] "ciao" "it" "en" [] =
      (Except.error (PyError.translationError
         ("Il servizio di traduzione non è al momento disponibile: " ++ "503")),
       [], ["ciao"]) :=
  ⟨rfl, by decide, rfl,
   claim_C6_single_attempt id (fun _ => VllmResponse.requestFailure "503") (fun _ => none)
     [] "ciao" "it" "en" [] "503" rfl (by decide) rfl⟩

/-- Witness for C2: a successful first call populates the cache and the
identical second call is served from it with an empty inference trace. -/
theorem claim_C2_witness :
    translate id (fun _ => VllmResponse.success "ciao tradotto") (fun _ => none)
        [] "ciao" "it" "en" [] =
      (Except.ok "ciao tradotto",
       [(cacheKeyOf id "it" "en" "ciao", "ciao tradotto")], ["ciao"]) ∧
    translate id (fun _ => VllmResponse.success "ciao tradotto") (fun _ => none)
        [(cacheKeyOf id "it" "en" "ciao", "ciao tradotto")] "ciao" "it" "en" [] =
      (Except.ok "ciao tradotto",
       [(cacheKeyOf id "it" "en" "ciao", "ciao tradotto")], []) :=
  ⟨rfl,
   claim_C2_cache_idempotence id (fun _ => VllmResponse.success "ciao tradotto")
     (fun _ => none) [] "ciao" "it" "en" [] [] "ciao tradotto"
     [(cacheKeyOf id "it" "en" "ciao", "ciao tradotto")] ["ciao"] rfl⟩

/-- A 3501-character text, long enough to trigger the chunked path. -/
def longText : String :=
  String.mk (List.replicate 3501 'a')

theorem longText_length : longText.length = 3501 := by
  show (List.replicate 3501 'a').length = 3501
  exact List.length_replicate 3501 'a'

theorem longText_data_head? : longText.data.head? = some 'a' := by
  show (List.replicate 3501 'a').head? = some 'a'
  rw [show (3501 : Nat) = 3500 + 1 from rfl, List.replicate_succ]
  rfl

theorem longText_data_getLast? : longText.data.getLast? = some 'a' := by
  show (List.replicate 3501 'a').getLast? = some 'a'
  rw [← List.head?_reverse, List.reverse_replicate]
  rw [show (3501 : Nat) = 3500 + 1 from rfl, List.replicate_succ]
  rfl

theorem packChunks_singleton (s : String) (target : Nat)
    (h1 : ∀ c, s.data.head? = some c → isPySpace c = false)
    (h2 : ∀ c, s.data.getLast? = some c → isPySpace c = false) :
    packChunks [s] target = [s] := by
  unfold packChunks packChunksAux
  rw [if_neg (by simp)]
  have hempty : ("" : String).data = [] := rfl
  have hspace : (" " : String).data = [' '] := rfl
  have hdata : ("" ++ s ++ " " : String).data = s.data ++ [' '] := by
    simp [String.data_append, hempty, hspace]
  have hne : ("" ++ s ++ " " : String) ≠ "" := by
    intro h
    have hd := congrArg String.data h
    rw [hdata, hempty] at hd
    simp at hd
  unfold packChunksAux
  rw [if_neg hne]
  have hstrip : pyStripWs ("" ++ s ++ " ") = s := by
    unfold pyStripWs pyStrip
    apply String.ext
    show stripL isPySpace ("" ++ s ++ " " : String).data = s.data
    rw [hdata]
    exact stripL_concat_space s.data h1 h2
  rw [hstrip]

theorem longText_chunks :
    createChunks (fun _ => some [longText]) longText CHUNK_TARGET_SIZE = [longText] := by
  unfold createChunks
  show packChunks [longText] CHUNK_TARGET_SIZE = [longText]
  apply packChunks_singleton longText CHUNK_TARGET_SIZE
  · intro c hc
    rw [longText_data_head?] at hc
    cases hc
    decide
  · intro c hc
    rw [longText_data_getLast?] at hc
    cases hc
    decide

/-- C1 counterexample: in the chunked path, a chunk whose 2xx response body
is not parseable JSON makes `response.json()` raise outside the handled
exception classes, so `translate` aborts with the raw exception — not a
`TranslationError`, and naming no chunk index — refuting the claim that any
chunk failure surfaces as a `TranslationError` with the chunk index. -/
theorem claim_C1_counterexample :
    translate id (fun _ => VllmResponse.unparseableBody "Expecting value: line 1 column 1 (char 0)")
        (fun _ => some [longText]) [] longText "it" "en" [] =
      (Except.error (PyError.uncaught "Expecting value: line 1 column 1 (char 0)"),
       [], [longText]) ∧
    PyError.isTranslationError
      (PyError.uncaught "Expecting value: line 1 column 1 (char 0)") = false := by
  have hmiss : List.lookup (cacheKeyOf id "it" "en" longText)
      ([] : List (String × String)) = none := rfl
  have hchunks : createChunks (fun _ : String => some [longText]) longText
      CHUNK_TARGET_SIZE = [] ++ longText :: [] := by
    rw [longText_chunks]
    rfl
  constructor
  · have h := translate_chunked_uncaught id
      (fun _ => VllmResponse.unparseableBody "Expecting value: line 1 column 1 (char 0)")
      (fun _ => some [longText]) [] longText "it" "en" [] [] longText []
      "Expecting value: line 1 column 1 (char 0)" hmiss
      (by rw [longText_length]; decide) hchunks
      (fun p hp => absurd hp (List.not_mem_nil p)) rfl
    rw [List.nil_append] at h
    exact h
  · rfl

/-- Witness for C1 (amended): with a 3501-character text segmented as a
single unit, a handled endpoint failure makes `translate` raise a
`TranslationError` naming chunk 1/1, while an unparseable 2xx body
propagates as the raw exception; in both cases the cache stays empty. -/
theorem claim_C1_witness :
    (List.lookup (cacheKeyOf id "it" "en" longText) ([] : List (String × String)) = none) ∧
    MAX_CHAR_COUNT < longText.length ∧
    createChunks (fun _ => some [longText]) longText CHUNK_TARGET_SIZE =
      [] ++ longText :: [] ∧
    translate id (fun _ => VllmResponse.requestFailure "boom") (fun _ => some [longText])
        [] longText "it" "en" [] =
      (Except.error (PyError.translationError ("La traduzione è fallita sul chunk " ++
         toString (([] : List String).length + 1) ++ "/" ++
         toString (([] ++ longText :: [] : List String)).length ++ ". Dettagli: " ++
         "Il servizio di traduzione non è al momento disponibile: boom")),
       [], [] ++ [longText]) ∧
    translate id (fun _ => VllmResponse.unparseableBody "Expecting value")
        (fun _ => some [longText]) [] longText "it" "en" [] =
      (Except.error (PyError.uncaught "Expecting value"), [], [] ++ [longText]) := by
  refine ⟨rfl, ?_, ?_, ?_, ?_⟩
  · rw [longText_length]
    decide
  · rw [longText_chunks]
    rfl
  · exact (claim_C1_chunk_failure_aborts id (fun _ => VllmResponse.requestFailure "boom")
      (fun _ => some [longText]) [] longText "it" "en" [] [] longText []
      rfl (by rw [longText_length]; decide)
      (by rw [longText_chunks]; rfl) (fun p hp => absurd hp (List.not_mem_nil p))).1
      "Il servizio di traduzione non è al momento disponibile: boom" rfl
  · exact (claim_C1_chunk_failure_aborts id
      (fun _ => VllmResponse.unparseableBody "Expecting value")
      (fun _ => some [longText]) [] longText "it" "en" [] [] longText []
      rfl (by rw [longText_length]; decide)
      (by rw [longText_chunks]; rfl) (fun p hp => absurd hp (List.not_mem_nil p))).2
      "Expecting value" rfl

/-- Witness for C4: with a 3501-character text segmented as a single unit
and a succeeding endpoint, the result is the ordered space-join of the
per-chunk sanitized translations, and it is cached. -/
theorem claim_C4_witness :
    (List.lookup (cacheKeyOf id "it" "en" longText) ([] : List (String × String)) = none) ∧
    MAX_CHAR_COUNT < longText.length ∧
    (∀ c ∈ createChunks (fun _ => some [longText]) longText CHUNK_TARGET_SIZE,
      callVllmApi (fun _ => VllmResponse.success "ok") c "it" "en" =
        Except.ok ((fun _ => "ok") c)) ∧
    translate id (fun _ => VllmResponse.success "ok") (fun _ => some [longText])
        [] longText "it" "en" [] =
      (Except.ok (spaceJoin ((createChunks (fun _ => some [longText]) longText
          CHUNK_TARGET_SIZE).map (fun _ => "ok"))),
       (cacheKeyOf id "it" "en" longText,
         spaceJoin ((createChunks (fun _ => some [longText]) longText
           CHUNK_TARGET_SIZE).map (fun _ => "ok"))) :: [],
       createChunks (fun _ => some [longText]) longText CHUNK_TARGET_SIZE) := by
  refine ⟨rfl, ?_, ?_, ?_⟩
  · rw [longText_length]
    decide
  · exact fun c _ => rfl
  · exact claim_C4_ordered_join id (fun _ => VllmResponse.success "ok")
      (fun _ => some [longText]) [] longText "it" "en" [] (fun _ => "ok")
      rfl (by rw [longText_length]; decide)
      (fun c _ => rfl)

end ThesisTranslation
